import Mathlib

/-!
Verification of the repair-log core of `app_reparo.py` (GWM-ControlIssue).

The program keeps a SQLite table `registros` of repair records keyed by a
generated id, with columns `vin`, `operador_id`, `tipo_retrabalho`, `shop`,
`hora_inicio`, `hora_fim` (NULL while the repair is open).  The core
operations are `validar_vin`, `verificar_reparo_aberto`, `iniciar_reparo`,
`finalizar_reparo` and the query `get_registros`; the report view computes the
MTTR as the mean of the per-row duration column.

Embedding choices:
* the table is a `List RepairRecord` in insertion order; the SQLite
  `PRIMARY KEY` constraint on `id` is the collision check of the insert path;
* record ids are `Nat` supplied by the caller (the program draws a fresh
  `uuid4`, an external generator);
* timestamps are `Nat` seconds; the program stores them as
  `'%Y-%m-%d %H:%M:%S'` strings, on which lexicographic `ORDER BY` agrees
  with chronological order, so `ORDER BY hora_inicio DESC` is modelled by
  ordering on the numeric timestamp; `DATE(hora_inicio)` is modelled as the
  calendar day `hora_inicio / 86400`;
* Python `str.upper` / `str.strip` are `pyUpper` / `pyStrip` below, acting on
  the character list of the string (ASCII case mapping, as `Char.toUpper`);
* the `(success, payload)` tuples returned by the operations are the
  inductives `StartResult` / `StopResult`; the data interpolated into the
  user-facing message (such as the elapsed minutes of the blocking open
  repair) is carried as a payload.
-/

/-- Python `str.upper()` on the character data (ASCII case mapping). -/
def pyUpper (s : String) : String := ⟨s.data.map Char.toUpper⟩

/-- Strip leading and trailing whitespace from a character list. -/
def stripList (l : List Char) : List Char :=
  ((l.dropWhile Char.isWhitespace).reverse.dropWhile Char.isWhitespace).reverse

/-- Python `str.strip()`. -/
def pyStrip (s : String) : String := ⟨stripList s.data⟩

/-- One row of the `registros` table. -/
structure RepairRecord where
  id : Nat
  vin : String
  operador_id : String
  tipo_retrabalho : Option String
  shop : Option String
  hora_inicio : Nat
  hora_fim : Option Nat
deriving DecidableEq

/-- Outcome of `iniciar_reparo` (the `(False, mensagem)` / `(True, id)` pair
of the program; the elapsed minutes interpolated into the open-repair message
are carried as a payload). -/
inductive StartResult where
  | ok (id : Nat)
  | invalidVin (msg : String)
  | openExists (elapsedMin : Int)
  | storageError
deriving DecidableEq

/-- Outcome of `finalizar_reparo` (the 4-tuple of the program: on success the
record id, the duration `hora_fim - hora_inicio` in seconds, and the stored
operator id). -/
inductive StopResult where
  | ok (id : Nat) (duracao : Int) (operador : String)
  | invalidVin (msg : String)
  | noOpen
deriving DecidableEq

/-- `validar_vin` (lines 38-43): rejects only the raw empty string, then
normalizes with `.upper().strip()`. -/
def validar_vin (vin : String) : Bool × String :=
  if vin = "" then (false, "VIN não pode estar vazio.")
  else (true, pyStrip (pyUpper vin))

/-- The WHERE clause `vin = ? AND hora_fim IS NULL` of the open-repair
lookups. -/
def isOpenFor (v : String) (r : RepairRecord) : Bool :=
  r.vin == v && r.hora_fim.isNone

/-- All rows matching `vin = v AND hora_fim IS NULL`, in table order. -/
def openFor (db : List RepairRecord) (v : String) : List RepairRecord :=
  db.filter (isOpenFor v)

/-- `ORDER BY hora_inicio DESC LIMIT 1`: a row with the maximal
`hora_inicio`, `none` on the empty result set. -/
def pickLatest : List RepairRecord → Option RepairRecord
  | [] => none
  | r :: rs =>
    match pickLatest rs with
    | none => some r
    | some b => if r.hora_inicio < b.hora_inicio then some b else some r

/-- The query `SELECT ... WHERE vin = ? AND hora_fim IS NULL ORDER BY
hora_inicio DESC LIMIT 1` shared by both lookup paths. -/
def latestOpen (db : List RepairRecord) (v : String) : Option RepairRecord :=
  pickLatest (openFor db v)

/-- `verificar_reparo_aberto` (lines 45-58): queries with `vin.upper()`. -/
def verificar_reparo_aberto (db : List RepairRecord) (vin : String) :
    Option RepairRecord :=
  latestOpen db (pyUpper vin)

/-- `int(tempo_decorrido.total_seconds() / 60)` for whole-second timestamps:
division by 60 truncated toward zero, as Python `int()`. -/
def elapsedMinutes (nowT inicioT : Nat) : Int :=
  Int.tdiv ((nowT : Int) - (inicioT : Int)) 60

/-- The row inserted by `iniciar_reparo` (lines 81-82): the normalized VIN,
`operador_id.strip().upper()`, `tipo_retrabalho.strip() if tipo_retrabalho
else None`, `shop if shop else None`, `hora_inicio = now`, open `hora_fim`. -/
def novoRegistro (newId nowT : Nat) (vin_formatado operador_id : String)
    (tipo_retrabalho shop : Option String) : RepairRecord :=
  { id := newId
    vin := vin_formatado
    operador_id := pyUpper (pyStrip operador_id)
    tipo_retrabalho :=
      match tipo_retrabalho with
      | none => none
      | some t => if t = "" then none else some (pyStrip t)
    shop :=
      match shop with
      | none => none
      | some s => if s = "" then none else some s
    hora_inicio := nowT
    hora_fim := none }

/-- `iniciar_reparo` (lines 60-88): validate the VIN, refuse when an open
repair exists (reporting its elapsed minutes), otherwise insert a fresh open
row; a primary-key collision on insert is the `sqlite3.Error` path, which
leaves the table unchanged. -/
def iniciar_reparo (db : List RepairRecord) (newId nowT : Nat)
    (vin operador_id : String) (tipo_retrabalho shop : Option String) :
    StartResult × List RepairRecord :=
  match validar_vin vin with
  | (false, msg) => (.invalidVin msg, db)
  | (true, vin_formatado) =>
    match verificar_reparo_aberto db vin_formatado with
    | some reparo_aberto =>
      (.openExists (elapsedMinutes nowT reparo_aberto.hora_inicio), db)
    | none =>
      if db.any (fun r => r.id == newId) then
        (.storageError, db)
      else
        (.ok newId,
         db ++ [novoRegistro newId nowT vin_formatado operador_id
                  tipo_retrabalho shop])

/-- `finalizar_reparo` (lines 90-125): validate the VIN, find the latest open
row for the normalized VIN, write `hora_fim = now` on it (the SQL `UPDATE ...
WHERE id = ?`) and return its id, the duration and the stored operator;
`noOpen` when no open row exists. -/
def finalizar_reparo (db : List RepairRecord) (nowT : Nat) (vin : String) :
    StopResult × List RepairRecord :=
  match validar_vin vin with
  | (false, msg) => (.invalidVin msg, db)
  | (true, vin_formatado) =>
    match latestOpen db vin_formatado with
    | none => (.noOpen, db)
    | some reparo_incompleto =>
      (.ok reparo_incompleto.id
         ((nowT : Int) - (reparo_incompleto.hora_inicio : Int))
         reparo_incompleto.operador_id,
       db.map (fun r =>
         if r.id == reparo_incompleto.id then { r with hora_fim := some nowT }
         else r))

/-- The WHERE clause built by `get_registros` (lines 132-148).  A `none` or
empty filter is skipped (Python truthiness); the operator and VIN filters
compare against the uppercased — not stripped — filter string; the date
filters compare the calendar day of `hora_inicio`. -/
def matchesFilters (filtro_operador filtro_vin : Option String)
    (filtro_data_inicio filtro_data_fim : Option Nat)
    (apenas_completos : Bool) (r : RepairRecord) : Bool :=
  (match filtro_operador with
   | none => true
   | some o => if o = "" then true else r.operador_id == pyUpper o) &&
  (match filtro_vin with
   | none => true
   | some v => if v = "" then true else r.vin == pyUpper v) &&
  (match filtro_data_inicio with
   | none => true
   | some d => d ≤ r.hora_inicio / 86400) &&
  (match filtro_data_fim with
   | none => true
   | some d => r.hora_inicio / 86400 ≤ d) &&
  (!apenas_completos || r.hora_fim.isSome)

/-- Stable insertion into a list kept in descending `hora_inicio` order. -/
def insertByInicioDesc (r : RepairRecord) :
    List RepairRecord → List RepairRecord
  | [] => [r]
  | s :: ss =>
    if r.hora_inicio ≤ s.hora_inicio then s :: insertByInicioDesc r ss
    else r :: s :: ss

/-- `ORDER BY hora_inicio DESC` as a stable insertion sort. -/
def sortByInicioDesc : List RepairRecord → List RepairRecord
  | [] => []
  | r :: rs => insertByInicioDesc r (sortByInicioDesc rs)

/-- `get_registros` (lines 127-152): the filtered rows ordered by
`hora_inicio` descending.  The duration/display columns the function appends
to the frame are the per-row functions below. -/
def get_registros (db : List RepairRecord)
    (filtro_operador filtro_vin : Option String)
    (filtro_data_inicio filtro_data_fim : Option Nat)
    (apenas_completos : Bool) : List RepairRecord :=
  sortByInicioDesc
    (db.filter (matchesFilters filtro_operador filtro_vin filtro_data_inicio
      filtro_data_fim apenas_completos))

/-- The `duracao_minutos` column of `get_registros` (lines 161-162):
`(hora_fim - hora_inicio)` in minutes, `none` (pandas `NaT`) on open rows. -/
def duracao_minutos (r : RepairRecord) : Option Rat :=
  match r.hora_fim with
  | none => none
  | some t => some ((((t : Int) - (r.hora_inicio : Int) : Int) : Rat) / 60)

/-- The MTTR metric of the report view (lines 432-439): the mean of the
`Duração (min)` column after dropping the open rows. -/
def mttr_minutos (rows : List RepairRecord) : Rat :=
  let ds := rows.filterMap duracao_minutos
  ds.sum / (ds.length : Rat)

/-- Outcome of the start-form submit handler of `app()`. -/
inductive UiStartOutcome where
  | errVin
  | errOperador
  | errShop
  | errValidacao (msg : String)
  | core (r : StartResult × List RepairRecord)
deriving DecidableEq

/-- The start-form submit handler of `app()` (lines 280-295): required-field
checks on the raw inputs, then `validar_vin` on the uppercased/stripped VIN,
then the call to `iniciar_reparo`. -/
def ui_submit_start (db : List RepairRecord) (newId nowT : Nat)
    (vin_start operador_id tipo_retrabalho shop : String) : UiStartOutcome :=
  if vin_start = "" then .errVin
  else if operador_id = "" then .errOperador
  else if shop = "" then .errShop
  else
    let vin_start_upper := pyStrip (pyUpper vin_start)
    match validar_vin vin_start_upper with
    | (false, msg) => .errValidacao msg
    | (true, _) =>
      .core (iniciar_reparo db newId nowT vin_start_upper operador_id
        (if tipo_retrabalho = "" then none else some tipo_retrabalho)
        (some shop))

/-- `StartResult.ok`-discriminator, for stating the error paths. -/
def StartResult.isOk : StartResult → Bool
  | .ok _ => true
  | _ => false

/-- The stores reachable from the empty table by any sequence of
`iniciar_reparo` / `finalizar_reparo` calls with arbitrary arguments. -/
inductive Reachable : List RepairRecord → Prop
  | init : Reachable []
  | start (db : List RepairRecord) (newId nowT : Nat) (vin operador_id : String)
      (tipo_retrabalho shop : Option String) :
      Reachable db →
      Reachable (iniciar_reparo db newId nowT vin operador_id tipo_retrabalho
        shop).2
  | stop (db : List RepairRecord) (nowT : Nat) (vin : String) :
      Reachable db → Reachable (finalizar_reparo db nowT vin).2

/-- Every stored row has a VIN and an operator id that are fixed points of
`str.upper` (both were normalized when inserted). -/
def UpperFixed (db : List RepairRecord) : Prop :=
  ∀ r ∈ db, pyUpper r.vin = r.vin ∧ pyUpper r.operador_id = r.operador_id

/-- The store invariant: at most one open row per VIN, pairwise distinct ids,
and normalized stored strings. -/
def StoreInv (db : List RepairRecord) : Prop :=
  (∀ v, (openFor db v).length ≤ 1) ∧
  (db.map RepairRecord.id).Nodup ∧ UpperFixed db

/-- The row-update function of `finalizar_reparo`'s `UPDATE` statement. -/
def closeIfId (qid nowT : Nat) (s : RepairRecord) : RepairRecord :=
  if s.id == qid then { s with hora_fim := some nowT } else s

/-- The row created by `iniciar_reparo` on the empty store with VIN `abc`,
operator `op1`, shop `BS`, at time 100. -/
def rec0 : RepairRecord :=
  { id := 0, vin := "ABC", operador_id := "OP1", tipo_retrabalho := none,
    shop := some ("BS"), hora_inicio := 100, hora_fim := none }

/-- The store holding just the open row `rec0`. -/
def db1 : List RepairRecord := [rec0]

/-- `rec0` closed at time 200. -/
def rec0c : RepairRecord := { rec0 with hora_fim := some 200 }

/-- The store holding just the closed row `rec0c`. -/
def db2 : List RepairRecord := [rec0c]

/-- A stored row used by the claim-C6 theorems. -/
def recC6 : RepairRecord :=
  { id := 0, vin := "ABC123", operador_id := "OP", tipo_retrabalho := none,
    shop := none, hora_inicio := 0, hora_fim := none }

/-- Three closed rows with durations 10, 20 and 30 minutes. -/
def dbC8 : List RepairRecord :=
  [{ id := 1, vin := "V1", operador_id := "OP", tipo_retrabalho := none,
     shop := none, hora_inicio := 0, hora_fim := some 600 },
   { id := 2, vin := "V2", operador_id := "OP", tipo_retrabalho := none,
     shop := none, hora_inicio := 0, hora_fim := some 1200 },
   { id := 3, vin := "V3", operador_id := "OP", tipo_retrabalho := none,
     shop := none, hora_inicio := 0, hora_fim := some 1800 }]

/-! ### Theorems -/

theorem char_toNat_ofNat {n : Nat} (h : n.isValidChar) : (Char.ofNat n).toNat = n := by
  rw [Char.ofNat, dif_pos h]; rfl

theorem char_toUpper_of_lower {c : Char} (h : 97 ≤ c.toNat ∧ c.toNat ≤ 122) :
    Char.toUpper c = Char.ofNat (c.toNat - 32) := by
  unfold Char.toUpper
  exact if_pos h

theorem char_toUpper_of_not_lower {c : Char} (h : ¬(97 ≤ c.toNat ∧ c.toNat ≤ 122)) :
    Char.toUpper c = c := by
  unfold Char.toUpper
  exact if_neg h

theorem char_toNat_toUpper_of_lower {c : Char} (h : 97 ≤ c.toNat ∧ c.toNat ≤ 122) :
    (Char.toUpper c).toNat = c.toNat - 32 := by
  rw [char_toUpper_of_lower h]
  exact char_toNat_ofNat (Or.inl (by omega))

theorem char_toUpper_toUpper (c : Char) :
    Char.toUpper (Char.toUpper c) = Char.toUpper c := by
  by_cases h : 97 ≤ c.toNat ∧ c.toNat ≤ 122
  · have h2 : (Char.toUpper c).toNat = c.toNat - 32 := char_toNat_toUpper_of_lower h
    exact char_toUpper_of_not_lower (by omega)
  · rw [char_toUpper_of_not_lower h]
    exact char_toUpper_of_not_lower h

theorem char_isWhitespace_toUpper (c : Char) :
    (Char.toUpper c).isWhitespace = c.isWhitespace := by
  by_cases h : 97 ≤ c.toNat ∧ c.toNat ≤ 122
  · have h1 : c.isWhitespace = false := by
      unfold Char.isWhitespace
      simp only [Bool.or_eq_false_iff, decide_eq_false_iff_not]
      refine ⟨⟨⟨?_, ?_⟩, ?_⟩, ?_⟩ <;> intro e <;> rw [e] at h <;> simp at h
    have h2 : (Char.toUpper c).isWhitespace = false := by
      have h3 : (Char.toUpper c).toNat = c.toNat - 32 := char_toNat_toUpper_of_lower h
      unfold Char.isWhitespace
      simp only [Bool.or_eq_false_iff, decide_eq_false_iff_not]
      refine ⟨⟨⟨?_, ?_⟩, ?_⟩, ?_⟩ <;> intro e <;> rw [e] at h3 <;> simp at h3 <;> omega
    rw [h1, h2]
  · rw [char_toUpper_of_not_lower h]

theorem whitespace_comp_toUpper :
    Char.isWhitespace ∘ Char.toUpper = Char.isWhitespace :=
  funext char_isWhitespace_toUpper

theorem stripList_map_toUpper (l : List Char) :
    stripList (l.map Char.toUpper) = (stripList l).map Char.toUpper := by
  unfold stripList
  rw [List.dropWhile_map, whitespace_comp_toUpper, ← List.map_reverse,
    List.dropWhile_map, whitespace_comp_toUpper, ← List.map_reverse]

theorem pyUpper_pyStrip (s : String) : pyUpper (pyStrip s) = pyStrip (pyUpper s) := by
  unfold pyUpper pyStrip
  exact congrArg String.mk (stripList_map_toUpper s.data).symm

theorem pyUpper_pyUpper (s : String) : pyUpper (pyUpper s) = pyUpper s := by
  unfold pyUpper
  refine congrArg String.mk ?_
  rw [List.map_map]
  exact List.map_congr_left (fun c _ => char_toUpper_toUpper c)

/-- A normalized VIN `vin.upper().strip()` is a fixed point of `str.upper`. -/
theorem pyUpper_normalized (s : String) :
    pyUpper (pyStrip (pyUpper s)) = pyStrip (pyUpper s) := by
  rw [pyUpper_pyStrip, pyUpper_pyUpper]

theorem validar_vin_ne {vin : String} (h : vin ≠ "") :
    validar_vin vin = (true, pyStrip (pyUpper vin)) := by
  simp [validar_vin, h]

theorem iniciar_of_empty (db : List RepairRecord) (newId nowT : Nat)
    (op : String) (tt sh : Option String) :
    iniciar_reparo db newId nowT ("") op tt sh =
      (.invalidVin ("VIN não pode estar vazio."), db) := rfl

theorem iniciar_of_open {db : List RepairRecord} {vin : String}
    {r : RepairRecord} (newId nowT : Nat) (op : String) (tt sh : Option String)
    (h : vin ≠ "")
    (h2 : verificar_reparo_aberto db (pyStrip (pyUpper vin)) = some r) :
    iniciar_reparo db newId nowT vin op tt sh =
      (.openExists (elapsedMinutes nowT r.hora_inicio), db) := by
  simp [iniciar_reparo, validar_vin_ne h, h2]

theorem iniciar_of_dup {db : List RepairRecord} {vin : String} {newId : Nat}
    (nowT : Nat) (op : String) (tt sh : Option String)
    (h : vin ≠ "")
    (h2 : verificar_reparo_aberto db (pyStrip (pyUpper vin)) = none)
    (h3 : db.any (fun r => r.id == newId) = true) :
    iniciar_reparo db newId nowT vin op tt sh = (.storageError, db) := by
  simp [iniciar_reparo, validar_vin_ne h, h2, h3]

theorem iniciar_of_fresh {db : List RepairRecord} {vin : String} {newId : Nat}
    (nowT : Nat) (op : String) (tt sh : Option String)
    (h : vin ≠ "")
    (h2 : verificar_reparo_aberto db (pyStrip (pyUpper vin)) = none)
    (h3 : db.any (fun r => r.id == newId) = false) :
    iniciar_reparo db newId nowT vin op tt sh =
      (.ok newId,
       db ++ [novoRegistro newId nowT (pyStrip (pyUpper vin)) op tt sh]) := by
  simp [iniciar_reparo, validar_vin_ne h, h2, h3]

theorem finalizar_of_empty (db : List RepairRecord) (nowT : Nat) :
    finalizar_reparo db nowT ("") =
      (.invalidVin ("VIN não pode estar vazio."), db) := rfl

theorem finalizar_of_none {db : List RepairRecord} {vin : String} (nowT : Nat)
    (h : vin ≠ "")
    (h2 : latestOpen db (pyStrip (pyUpper vin)) = none) :
    finalizar_reparo db nowT vin = (.noOpen, db) := by
  simp [finalizar_reparo, validar_vin_ne h, h2]

theorem finalizar_of_some {db : List RepairRecord} {vin : String}
    {r : RepairRecord} (nowT : Nat) (h : vin ≠ "")
    (h2 : latestOpen db (pyStrip (pyUpper vin)) = some r) :
    finalizar_reparo db nowT vin =
      (.ok r.id ((nowT : Int) - (r.hora_inicio : Int)) r.operador_id,
       db.map (fun s =>
         if s.id == r.id then { s with hora_fim := some nowT } else s)) := by
  simp [finalizar_reparo, validar_vin_ne h, h2]

theorem pickLatest_eq_none {l : List RepairRecord} :
    pickLatest l = none ↔ l = [] := by
  cases l with
  | nil => simp [pickLatest]
  | cons r rs =>
    simp only [pickLatest]
    constructor
    · intro h
      cases hp : pickLatest rs with
      | none => rw [hp] at h; exact absurd h (by simp)
      | some b => rw [hp] at h; by_cases hlt : r.hora_inicio < b.hora_inicio <;>
          simp [hlt] at h
    · intro h
      exact absurd h (by simp)

theorem pickLatest_mem {l : List RepairRecord} {r : RepairRecord}
    (h : pickLatest l = some r) : r ∈ l := by
  induction l with
  | nil => simp [pickLatest] at h
  | cons a rs ih =>
    simp only [pickLatest] at h
    cases hp : pickLatest rs with
    | none => rw [hp] at h; simp at h; simp [h]
    | some b =>
      rw [hp] at h
      by_cases hlt : a.hora_inicio < b.hora_inicio
      · simp [hlt] at h
        subst h
        exact List.mem_cons_of_mem a (ih hp)
      · simp [hlt] at h
        simp [h]

theorem pickLatest_max {l : List RepairRecord} :
    ∀ {r : RepairRecord}, pickLatest l = some r →
      ∀ s ∈ l, s.hora_inicio ≤ r.hora_inicio := by
  induction l with
  | nil => intro r h; simp [pickLatest] at h
  | cons a rs ih =>
    intro r h s hs
    simp only [pickLatest] at h
    cases hp : pickLatest rs with
    | none =>
      rw [hp] at h
      simp at h
      have : rs = [] := pickLatest_eq_none.mp hp
      subst this
      simp at hs
      subst hs; subst h; exact le_refl _
    | some b =>
      rw [hp] at h
      rcases List.mem_cons.mp hs with hsa | hsrs
      · subst hsa
        by_cases hlt : s.hora_inicio < b.hora_inicio
        · simp [hlt] at h
          subst h; omega
        · simp [hlt] at h
          subst h; exact le_refl _
      · have hb := ih hp s hsrs
        by_cases hlt : a.hora_inicio < b.hora_inicio
        · simp [hlt] at h
          subst h; exact hb
        · simp [hlt] at h
          subst h; omega

theorem inv_nil : StoreInv [] :=
  ⟨fun v => by simp [openFor], by simp, fun r hr => absurd hr (by simp)⟩

theorem inv_iniciar (db : List RepairRecord) (newId nowT : Nat)
    (vin op : String) (tt sh : Option String) (hI : StoreInv db) :
    StoreInv (iniciar_reparo db newId nowT vin op tt sh).2 := by
  by_cases hv : vin = ""
  · subst hv; rw [iniciar_of_empty]; exact hI
  · cases hop : verificar_reparo_aberto db (pyStrip (pyUpper vin)) with
    | some r => rw [iniciar_of_open newId nowT op tt sh hv hop]; exact hI
    | none =>
      cases hany : db.any (fun r => r.id == newId) with
      | true => rw [iniciar_of_dup nowT op tt sh hv hop hany]; exact hI
      | false =>
        rw [iniciar_of_fresh nowT op tt sh hv hop hany]
        have hvfU : pyUpper (pyStrip (pyUpper vin)) = pyStrip (pyUpper vin) :=
          pyUpper_normalized vin
        have hopenEmpty : openFor db (pyStrip (pyUpper vin)) = [] := by
          have h2 := hop
          unfold verificar_reparo_aberto at h2
          rw [hvfU] at h2
          exact pickLatest_eq_none.mp h2
        obtain ⟨hcount, hnodup, hupper⟩ := hI
        have hfresh : ∀ r ∈ db, r.id ≠ newId := by
          intro r hr
          have h3 := List.any_eq_false.mp hany r hr
          simpa using h3
        refine ⟨?_, ?_, ?_⟩
        · intro v
          show (List.filter (isOpenFor v) (db ++ [_])).length ≤ 1
          rw [List.filter_append, List.length_append]
          by_cases hv2 : v = pyStrip (pyUpper vin)
          · have h4 : List.filter (isOpenFor v) db = [] := by
              rw [hv2]; exact hopenEmpty
            rw [h4]
            simpa using List.length_filter_le (isOpenFor v) [_]
          · have h5 : isOpenFor v
                (novoRegistro newId nowT (pyStrip (pyUpper vin)) op tt sh) =
                false := by
              simp only [isOpenFor, novoRegistro, Bool.and_eq_false_iff]
              left
              simpa using fun he => hv2 he.symm
            rw [List.filter_cons, h5]
            simpa using hcount v
        · show ((db ++ [_]).map RepairRecord.id).Nodup
          rw [List.map_append, List.nodup_append]
          refine ⟨hnodup, by simp, ?_⟩
          intro a ha hb
          simp only [List.map_cons, List.map_nil, List.mem_singleton] at hb
          obtain ⟨r, hr, hrid⟩ := List.mem_map.mp ha
          subst hb
          exact hfresh r hr (by simpa [novoRegistro] using hrid)
        · intro r hr
          rcases List.mem_append.mp hr with hm | hm
          · exact hupper r hm
          · simp only [List.mem_singleton] at hm
            subst hm
            exact ⟨hvfU, pyUpper_pyUpper _⟩

theorem closeIfId_id (qid nowT : Nat) (s : RepairRecord) :
    (closeIfId qid nowT s).id = s.id := by
  unfold closeIfId; split <;> rfl

theorem closeIfId_vin (qid nowT : Nat) (s : RepairRecord) :
    (closeIfId qid nowT s).vin = s.vin := by
  unfold closeIfId; split <;> rfl

theorem closeIfId_operador (qid nowT : Nat) (s : RepairRecord) :
    (closeIfId qid nowT s).operador_id = s.operador_id := by
  unfold closeIfId; split <;> rfl

theorem isOpenFor_comp_closeIfId (v : String) (qid nowT : Nat)
    (s : RepairRecord) :
    isOpenFor v (closeIfId qid nowT s) = (!(s.id == qid) && isOpenFor v s) := by
  unfold closeIfId
  by_cases hid : s.id == qid
  · simp [hid, isOpenFor]
  · simp [hid]

theorem finalizar_eq_closeIfId {db : List RepairRecord} {vin : String}
    {r : RepairRecord} (nowT : Nat) (h : vin ≠ "")
    (h2 : latestOpen db (pyStrip (pyUpper vin)) = some r) :
    finalizar_reparo db nowT vin =
      (.ok r.id ((nowT : Int) - (r.hora_inicio : Int)) r.operador_id,
       db.map (closeIfId r.id nowT)) :=
  finalizar_of_some nowT h h2

theorem openFor_map_closeIfId (db : List RepairRecord) (v : String)
    (qid nowT : Nat) :
    openFor (db.map (closeIfId qid nowT)) v =
      (db.filter (fun s => !(s.id == qid) && isOpenFor v s)).map
        (closeIfId qid nowT) := by
  unfold openFor
  rw [List.filter_map]
  congr 1
  exact List.filter_congr (fun s _ => isOpenFor_comp_closeIfId v qid nowT s)

theorem inv_finalizar (db : List RepairRecord) (nowT : Nat) (vin : String)
    (hI : StoreInv db) : StoreInv (finalizar_reparo db nowT vin).2 := by
  by_cases hv : vin = ""
  · subst hv; rw [finalizar_of_empty]; exact hI
  · cases hop : latestOpen db (pyStrip (pyUpper vin)) with
    | none => rw [finalizar_of_none nowT hv hop]; exact hI
    | some q =>
      rw [finalizar_eq_closeIfId nowT hv hop]
      obtain ⟨hcount, hnodup, hupper⟩ := hI
      refine ⟨?_, ?_, ?_⟩
      · intro v
        rw [openFor_map_closeIfId, List.length_map]
        calc (db.filter (fun s => !(s.id == q.id) && isOpenFor v s)).length
            = ((db.filter (isOpenFor v)).filter
                (fun s => !(s.id == q.id))).length := by
              rw [List.filter_filter]
          _ ≤ (db.filter (isOpenFor v)).length :=
              List.length_filter_le _ _
          _ ≤ 1 := hcount v
      · rw [List.map_map]
        have he : RepairRecord.id ∘ closeIfId q.id nowT = RepairRecord.id :=
          funext (closeIfId_id q.id nowT)
        rw [he]
        exact hnodup
      · intro r hr
        obtain ⟨s, hs, hsr⟩ := List.mem_map.mp hr
        subst hsr
        rw [closeIfId_vin, closeIfId_operador]
        exact hupper s hs

/-- Every reachable store satisfies the invariant. -/
theorem reachable_storeInv {db : List RepairRecord} (h : Reachable db) :
    StoreInv db := by
  induction h with
  | init => exact inv_nil
  | start db newId nowT vin op tt sh hdb ih =>
    exact inv_iniciar db newId nowT vin op tt sh ih
  | stop db nowT vin hdb ih => exact inv_finalizar db nowT vin ih

theorem openFor_eq_singleton {db : List RepairRecord} {v : String}
    {q : RepairRecord} (hq : latestOpen db v = some q)
    (hcount : (openFor db v).length ≤ 1) : openFor db v = [q] := by
  have hqmem : q ∈ openFor db v := pickLatest_mem hq
  cases hl : openFor db v with
  | nil => rw [hl] at hqmem; cases hqmem
  | cons a as =>
    rw [hl] at hqmem hcount
    simp only [List.length_cons] at hcount
    have has : as = [] := List.eq_nil_of_length_eq_zero (by omega)
    subst has
    simp only [List.mem_singleton] at hqmem
    rw [hqmem]

theorem openFor_close_nil {db : List RepairRecord} {v : String}
    {q : RepairRecord} (hq : latestOpen db v = some q)
    (hcount : (openFor db v).length ≤ 1) (nowT : Nat) :
    openFor (db.map (closeIfId q.id nowT)) v = [] := by
  rw [openFor_map_closeIfId]
  have hsingle := openFor_eq_singleton hq hcount
  have hnil : db.filter (fun s => !(s.id == q.id) && isOpenFor v s) = [] := by
    rw [List.filter_eq_nil_iff]
    intro a ha h
    simp only [Bool.and_eq_true, Bool.not_eq_eq_eq_not, Bool.not_true,
      beq_eq_false_iff_ne, ne_eq] at h
    have hmem : a ∈ openFor db v := List.mem_filter.mpr ⟨ha, h.2⟩
    rw [hsingle] at hmem
    simp only [List.mem_singleton] at hmem
    exact h.1 (by rw [hmem])
  rw [hnil]
  rfl

theorem latestOpen_close_none {db : List RepairRecord} {v : String}
    {q : RepairRecord} (hq : latestOpen db v = some q)
    (hcount : (openFor db v).length ≤ 1) (nowT : Nat) :
    latestOpen (db.map (closeIfId q.id nowT)) v = none := by
  unfold latestOpen
  rw [openFor_close_nil hq hcount nowT]
  rfl

theorem insertByInicioDesc_perm (r : RepairRecord) (l : List RepairRecord) :
    (insertByInicioDesc r l).Perm (r :: l) := by
  induction l with
  | nil => exact List.Perm.refl _
  | cons s ss ih =>
    unfold insertByInicioDesc
    split
    · exact (ih.cons s).trans (List.Perm.swap r s ss)
    · exact List.Perm.refl _

theorem sortByInicioDesc_perm (l : List RepairRecord) :
    (sortByInicioDesc l).Perm l := by
  induction l with
  | nil => exact List.Perm.refl _
  | cons r rs ih =>
    unfold sortByInicioDesc
    exact (insertByInicioDesc_perm r _).trans (ih.cons r)

theorem mem_get_registros {db : List RepairRecord} {r : RepairRecord}
    {fo fv : Option String} {fdi fdf : Option Nat} {ac : Bool} :
    r ∈ get_registros db fo fv fdi fdf ac ↔
      r ∈ db ∧ matchesFilters fo fv fdi fdf ac r = true := by
  unfold get_registros
  rw [(sortByInicioDesc_perm _).mem_iff]
  exact List.mem_filter

theorem mttr_perm_invariant {l1 l2 : List RepairRecord} (h : l1.Perm l2) :
    mttr_minutos l1 = mttr_minutos l2 := by
  have hp := h.filterMap duracao_minutos
  show (l1.filterMap duracao_minutos).sum /
      ((l1.filterMap duracao_minutos).length : Rat) =
    (l2.filterMap duracao_minutos).sum /
      ((l2.filterMap duracao_minutos).length : Rat)
  rw [hp.sum_eq, hp.length_eq]

theorem reachable_db1 : Reachable db1 := by
  have h : (iniciar_reparo [] 0 100 ("abc") ("op1") none (some ("BS"))).2 =
      db1 := by decide
  exact h ▸ Reachable.start [] 0 100 ("abc") ("op1") none (some ("BS"))
    Reachable.init

theorem reachable_db2 : Reachable db2 := by
  have h : (finalizar_reparo db1 200 ("abc")).2 = db2 := by decide
  exact h ▸ Reachable.stop db1 200 ("abc") reachable_db1

/-- Claim C1: from the empty store, every sequence of start
(`iniciar_reparo`) and stop (`finalizar_reparo`) operations preserves the
single-open-repair-per-VIN invariant: at any reachable store, for every VIN,
at most one stored row has `hora_fim = NULL`. -/
theorem claim1_single_open_per_vin (db : List RepairRecord)
    (h : Reachable db) (v : String) : (openFor db v).length ≤ 1 :=
  (reachable_storeInv h).1 v

theorem claim1_single_open_per_vin_witness :
    (openFor db1 ("ABC")).length ≤ 1 :=
  claim1_single_open_per_vin db1 reachable_db1 ("ABC")

/-- Claim C2: when the store holds an open row for the normalized VIN,
`iniciar_reparo` fails with the open-repair-exists error, carrying the
elapsed time `now - started_at` in whole minutes of that open row, and the
store is unchanged. -/
theorem claim2_start_blocked_reports_elapsed (db : List RepairRecord)
    (newId nowT : Nat) (vin op : String) (tt sh : Option String)
    (r : RepairRecord) (hvin : vin ≠ "")
    (hopen : verificar_reparo_aberto db (pyStrip (pyUpper vin)) = some r) :
    iniciar_reparo db newId nowT vin op tt sh =
      (StartResult.openExists (elapsedMinutes nowT r.hora_inicio), db) :=
  iniciar_of_open newId nowT op tt sh hvin hopen

theorem claim2_start_blocked_reports_elapsed_witness :
    iniciar_reparo db1 1 160 ("abc") ("op2") none none =
      (StartResult.openExists 1, db1) := by
  have h := claim2_start_blocked_reports_elapsed db1 1 160 ("abc") ("op2")
    none none rec0 (by decide) (by decide)
  rw [h]
  decide

/-- Claim C9: whenever `iniciar_reparo` returns a failure — invalid VIN,
already-open repair, or insert error — the store is exactly what it was
before the call. -/
theorem claim9_start_error_leaves_store (db : List RepairRecord)
    (newId nowT : Nat) (vin op : String) (tt sh : Option String)
    (h : (iniciar_reparo db newId nowT vin op tt sh).1.isOk = false) :
    (iniciar_reparo db newId nowT vin op tt sh).2 = db := by
  by_cases hv : vin = ""
  · subst hv; rw [iniciar_of_empty]
  · cases hop : verificar_reparo_aberto db (pyStrip (pyUpper vin)) with
    | some q => rw [iniciar_of_open newId nowT op tt sh hv hop]
    | none =>
      cases hany : db.any (fun x => x.id == newId) with
      | true => rw [iniciar_of_dup nowT op tt sh hv hop hany]
      | false =>
        rw [iniciar_of_fresh nowT op tt sh hv hop hany] at h
        simp [StartResult.isOk] at h

theorem claim9_start_error_leaves_store_witness :
    (iniciar_reparo db1 1 160 ("abc") ("op2") none none).2 = db1 :=
  claim9_start_error_leaves_store db1 1 160 ("abc") ("op2") none none
    (by decide)

/-- Claim C3: for a VIN (nonempty, as required by the stop precondition) with
no open row, `finalizar_reparo` fails with the no-open-repair error and
leaves the store unchanged — a store whose rows for the VIN are all closed
and a store that never saw the VIN produce the identical result — and a
second stop immediately after a successful stop fails the same way. -/
theorem claim3_stop_without_open (db : List RepairRecord) (nowT nowT2 : Nat)
    (vin : String) (hvin : vin ≠ "") (hdb : Reachable db) :
    (latestOpen db (pyStrip (pyUpper vin)) = none →
      finalizar_reparo db nowT vin = (StopResult.noOpen, db)) ∧
    (∀ i d o db2x,
      finalizar_reparo db nowT vin = (StopResult.ok i d o, db2x) →
      finalizar_reparo db2x nowT2 vin = (StopResult.noOpen, db2x)) := by
  constructor
  · intro h2
    exact finalizar_of_none nowT hvin h2
  · intro i d o db2x hfin
    cases hop : latestOpen db (pyStrip (pyUpper vin)) with
    | none =>
      rw [finalizar_of_none nowT hvin hop] at hfin
      exact absurd (congrArg Prod.fst hfin) (by simp)
    | some q =>
      rw [finalizar_eq_closeIfId nowT hvin hop] at hfin
      have h2 := congrArg Prod.snd hfin
      simp only at h2
      subst h2
      exact finalizar_of_none nowT2 hvin
        (latestOpen_close_none hop ((reachable_storeInv hdb).1 _) nowT)

theorem claim3_stop_without_open_witness :
    finalizar_reparo db2 300 ("abc") = (StopResult.noOpen, db2) :=
  (claim3_stop_without_open db1 200 300 ("abc") (by decide)
    reachable_db1).2 0 100 ("OP1") db2 (by decide)

/-- Claim C4: when an open row exists for the normalized VIN,
`finalizar_reparo` picks the open row with the latest `hora_inicio`, writes
`hora_fim = now` on it, and returns success with that row's id, the duration
`now - hora_inicio`, and the operator id stored at start time (a fixed point
of uppercasing on every reachable store). -/
theorem claim4_stop_closes_latest (db : List RepairRecord) (nowT : Nat)
    (vin : String) (r : RepairRecord) (hvin : vin ≠ "") (hdb : Reachable db)
    (hfound : latestOpen db (pyStrip (pyUpper vin)) = some r) :
    (finalizar_reparo db nowT vin).1 =
      StopResult.ok r.id ((nowT : Int) - (r.hora_inicio : Int))
        r.operador_id ∧
    r ∈ openFor db (pyStrip (pyUpper vin)) ∧
    (∀ s ∈ openFor db (pyStrip (pyUpper vin)),
      s.hora_inicio ≤ r.hora_inicio) ∧
    { r with hora_fim := some nowT } ∈ (finalizar_reparo db nowT vin).2 ∧
    pyUpper r.operador_id = r.operador_id := by
  have hrmem : r ∈ openFor db (pyStrip (pyUpper vin)) := pickLatest_mem hfound
  have hrdb : r ∈ db := (List.mem_filter.mp hrmem).1
  refine ⟨?_, hrmem, pickLatest_max hfound, ?_, ?_⟩
  · rw [finalizar_eq_closeIfId nowT hvin hfound]
  · rw [finalizar_eq_closeIfId nowT hvin hfound]
    show _ ∈ db.map (closeIfId r.id nowT)
    have hcl : closeIfId r.id nowT r = { r with hora_fim := some nowT } := by
      unfold closeIfId; simp
    exact hcl ▸ List.mem_map_of_mem _ hrdb
  · exact ((reachable_storeInv hdb).2.2 r hrdb).2

theorem claim4_stop_closes_latest_witness :
    (finalizar_reparo db1 400 ("abc")).1 = StopResult.ok 0 300 ("OP1") ∧
    { rec0 with hora_fim := some 400 } ∈ (finalizar_reparo db1 400 ("abc")).2 := by
  have h := claim4_stop_closes_latest db1 400 ("abc") rec0 (by decide)
    reachable_db1 (by decide)
  exact ⟨by rw [h.1]; decide, h.2.2.2.1⟩

/-- Claim C7: a row whose `hora_fim` is set is never modified again: both
`iniciar_reparo` (which only appends open rows) and `finalizar_reparo`
(which only updates a row that is still open) keep every closed row of a
reachable store untouched. -/
theorem claim7_hora_fim_immutable (db : List RepairRecord)
    (hdb : Reachable db) (r : RepairRecord) (hr : r ∈ db) (t : Nat)
    (ht : r.hora_fim = some t) (newId nowT nowT2 : Nat)
    (vin op vin2 : String) (tt sh : Option String) :
    r ∈ (iniciar_reparo db newId nowT vin op tt sh).2 ∧
    r ∈ (finalizar_reparo db nowT2 vin2).2 := by
  constructor
  · by_cases hv : vin = ""
    · subst hv; rw [iniciar_of_empty]; exact hr
    · cases hop : verificar_reparo_aberto db (pyStrip (pyUpper vin)) with
      | some q => rw [iniciar_of_open newId nowT op tt sh hv hop]; exact hr
      | none =>
        cases hany : db.any (fun x => x.id == newId) with
        | true => rw [iniciar_of_dup nowT op tt sh hv hop hany]; exact hr
        | false =>
          rw [iniciar_of_fresh nowT op tt sh hv hop hany]
          exact List.mem_append_left _ hr
  · by_cases hv : vin2 = ""
    · subst hv; rw [finalizar_of_empty]; exact hr
    · cases hop : latestOpen db (pyStrip (pyUpper vin2)) with
      | none => rw [finalizar_of_none nowT2 hv hop]; exact hr
      | some q =>
        rw [finalizar_eq_closeIfId nowT2 hv hop]
        have hq : q ∈ db := (List.mem_filter.mp (pickLatest_mem hop)).1
        have hqopen : q.hora_fim = none := by
          have h3 := (List.mem_filter.mp (pickLatest_mem hop)).2
          simp only [isOpenFor, Bool.and_eq_true, Option.isNone_iff_eq_none]
            at h3
          exact h3.2
        have hne : r.id ≠ q.id := by
          intro he
          have h4 := List.inj_on_of_nodup_map (reachable_storeInv hdb).2.1
            hr hq he
          rw [h4, hqopen] at ht
          cases ht
        have hcl : closeIfId q.id nowT2 r = r := by
          unfold closeIfId
          simp [hne]
        exact hcl ▸ List.mem_map_of_mem _ hr

theorem claim7_hora_fim_immutable_witness :
    rec0c ∈ (iniciar_reparo db2 5 500 ("xyz") ("q") none none).2 ∧
    rec0c ∈ (finalizar_reparo db2 600 ("abc")).2 :=
  claim7_hora_fim_immutable db2 reachable_db2 rec0c (by decide) 200
    (by decide) 5 500 600 ("xyz") ("q") ("abc") none none

/-- Claim C5 as stated is false on the code: a VIN that is whitespace-only —
hence empty after normalization — and an empty operator id are both accepted
by `iniciar_reparo`, which inserts a row (`validar_vin` checks only the raw
string for emptiness and the operator is never validated). -/
theorem claim5_counterexample :
    iniciar_reparo [] 7 100 (" ") ("") none none =
      (StartResult.ok 7,
       [{ id := 7, vin := "", operador_id := "", tipo_retrabalho := none,
          shop := none, hora_inicio := 100, hora_fim := none }]) := by decide

/-- Claim C5, amended: `iniciar_reparo` fails with the invalid-input error
exactly when the raw `vin` argument is the empty string, and in that case no
row is created; a whitespace-only VIN or an empty operator id is not
rejected. -/
theorem claim5_invalid_iff_raw_empty (db : List RepairRecord)
    (newId nowT : Nat) (vin op : String) (tt sh : Option String) :
    (vin = "" →
      iniciar_reparo db newId nowT vin op tt sh =
        (StartResult.invalidVin ("VIN não pode estar vazio."), db)) ∧
    (∀ msg db2x,
      iniciar_reparo db newId nowT vin op tt sh =
        (StartResult.invalidVin msg, db2x) → vin = "" ∧ db2x = db) := by
  constructor
  · intro hv; subst hv; rfl
  · intro msg db2x hfin
    by_cases hv : vin = ""
    · subst hv
      rw [iniciar_of_empty] at hfin
      exact ⟨rfl, (congrArg Prod.snd hfin).symm⟩
    · exfalso
      cases hop : verificar_reparo_aberto db (pyStrip (pyUpper vin)) with
      | some q =>
        rw [iniciar_of_open newId nowT op tt sh hv hop] at hfin
        exact absurd (congrArg Prod.fst hfin) (by simp)
      | none =>
        cases hany : db.any (fun x => x.id == newId) with
        | true =>
          rw [iniciar_of_dup nowT op tt sh hv hop hany] at hfin
          exact absurd (congrArg Prod.fst hfin) (by simp)
        | false =>
          rw [iniciar_of_fresh nowT op tt sh hv hop hany] at hfin
          exact absurd (congrArg Prod.fst hfin) (by simp)

theorem claim5_invalid_iff_raw_empty_witness :
    iniciar_reparo [] 0 5 ("") ("x") none none =
      (StartResult.invalidVin ("VIN não pode estar vazio."), []) :=
  (claim5_invalid_iff_raw_empty [] 0 5 ("") ("x") none none).1 rfl

/-- Claim C6 as stated is false on the code: `get_registros` uppercases the
VIN filter but does not strip it, so a filter with surrounding whitespace
fails to match a row stored under the trimmed normalized VIN. -/
theorem claim6_counterexample :
    get_registros [recC6] none (some (" abc123 ")) none none false = [] ∧
    recC6.vin = pyStrip (pyUpper (" abc123 ")) := by decide

/-- Claim C6, amended: for a nonempty VIN filter, `get_registros` returns
exactly the rows whose stored VIN equals the uppercased filter — matching is
case-insensitive, but surrounding whitespace in the filter is not
stripped. -/
theorem claim6_vin_filter_uppercased (db : List RepairRecord) (fv : String)
    (r : RepairRecord) (h : fv ≠ "") :
    r ∈ get_registros db none (some fv) none none false ↔
      r ∈ db ∧ r.vin = pyUpper fv := by
  rw [mem_get_registros]
  constructor
  · rintro ⟨hm, hf⟩
    refine ⟨hm, ?_⟩
    simp [matchesFilters, h] at hf
    exact hf
  · rintro ⟨hm, hv⟩
    refine ⟨hm, ?_⟩
    simp [matchesFilters, h, hv]

theorem claim6_vin_filter_uppercased_witness :
    recC6 ∈ get_registros [recC6] none (some ("abc123")) none none false :=
  (claim6_vin_filter_uppercased [recC6] ("abc123") recC6 (by decide)).mpr
    ⟨by decide, by decide⟩

/-- Claim C8: the MTTR of the report view is the arithmetic mean of
`(hora_fim - hora_inicio)` in minutes over the closed rows of the filtered
set (the ordering applied by the query does not affect it), and over closed
durations of 10, 20 and 30 minutes it equals 20 minutes. -/
theorem claim8_mttr_mean :
    (∀ db fo fv fdi fdf ac,
      mttr_minutos (get_registros db fo fv fdi fdf ac) =
        mttr_minutos (db.filter (matchesFilters fo fv fdi fdf ac))) ∧
    mttr_minutos (get_registros dbC8 none none none none true) = 20 := by
  have hgen : ∀ db fo fv fdi fdf ac,
      mttr_minutos (get_registros db fo fv fdi fdf ac) =
        mttr_minutos (db.filter (matchesFilters fo fv fdi fdf ac)) :=
    fun db fo fv fdi fdf ac => mttr_perm_invariant (sortByInicioDesc_perm _)
  refine ⟨hgen, ?_⟩
  rw [hgen]
  have hfil : dbC8.filter (matchesFilters none none none none true) = dbC8 :=
    by decide
  rw [hfil]
  show (dbC8.filterMap duracao_minutos).sum /
      ((dbC8.filterMap duracao_minutos).length : Rat) = 20
  have hds : dbC8.filterMap duracao_minutos = [10, 20, 30] := by
    simp [dbC8, duracao_minutos]
    norm_num
  rw [hds]
  norm_num [List.sum_cons]

/-- Claim C10: the core does not require a shop: for a nonempty VIN with no
open repair and a fresh id, `iniciar_reparo` succeeds with `shop = None` or
`shop = ""` and `rework_type = None`, storing a NULL shop column; the
shop-required check lives only in the UI submit handler. -/
theorem claim10_shop_not_enforced (db : List RepairRecord) (newId nowT : Nat)
    (vin op : String) (sh : Option String) (hvin : vin ≠ "")
    (hopen : verificar_reparo_aberto db (pyStrip (pyUpper vin)) = none)
    (hid : db.any (fun r => r.id == newId) = false)
    (hsh : sh = none ∨ sh = some ("")) :
    iniciar_reparo db newId nowT vin op none sh =
      (StartResult.ok newId,
       db ++ [{ id := newId, vin := pyStrip (pyUpper vin),
                operador_id := pyUpper (pyStrip op), tipo_retrabalho := none,
                shop := none, hora_inicio := nowT, hora_fim := none }]) ∧
    ui_submit_start db newId nowT ("V") ("O") ("") ("") =
      UiStartOutcome.errShop := by
  constructor
  · rw [iniciar_of_fresh nowT op none sh hvin hopen hid]
    congr 1
    rcases hsh with h | h <;> subst h <;> rfl
  · rfl

theorem claim10_shop_not_enforced_witness :
    iniciar_reparo [] 3 50 ("vin1") ("op") none (some ("")) =
      (StartResult.ok 3,
       [{ id := 3, vin := "VIN1", operador_id := "OP",
          tipo_retrabalho := none, shop := none, hora_inicio := 50,
          hora_fim := none }]) := by
  have h := (claim10_shop_not_enforced [] 3 50 ("vin1") ("op") (some (""))
    (by decide) (by decide) (by decide) (Or.inr rfl)).1
  rw [h]
  decide
